import Mathlib

set_option linter.unusedSectionVars false
set_option linter.unusedVariables false

/-!
Verification of the recovery orchestration and incremental replay engine of
the `ddb_cross_region_dr` repository.

The embedding models:
* `retry_decorator.py` : the generic bounded-retry-with-backoff wrapper
  (`retry_with_backoff`), with the service response of each attempt supplied
  as an explicit function of the attempt number and sleep lengths collected
  into a trace;
* `enhanced_batch_applier.py` : the per-record replay algorithm of
  `EnhancedBatchApplier._apply_batch_with_retry` and the sub-batch driver
  `apply_changes_from_s3`, with the target table as a function from keys to
  optional rows and per-record service faults supplied by an explicit
  environment;
* `disaster_recovery_manager.py` : the change-window resolver
  `find_incremental_changes` and the top-level step sequencing of
  `full_disaster_recovery`, with each remote call outcome supplied by an
  explicit environment.
-/

namespace DdbDr

/-- Python exception as seen by the retry wrapper and the record loop:
either a botocore `ClientError` carrying a service error code, or any other
exception (`ValueError`, `KeyError`, ...) identified by its class name. -/
inductive PyErr where
  | clientError (code : String)
  | otherError (name : String)
deriving DecidableEq, Repr

/-- String form of an exception, standing for Python `str(e)`. -/
def errStr : PyErr → String
  | .clientError c => c
  | .otherError n => n

/-!  ## Replay engine: `EnhancedBatchApplier._apply_batch_with_retry`

A stream record is a JSON object with an `eventName` and, under `dynamodb`,
an optional full `NewImage` (modelled as the primary key together with the
complete row it serializes to) and optional `Keys` (modelled as the primary
key).  A missing field raises `KeyError` in the source, which the per-record
handler turns into a per-record error. -/
structure StreamRecord (K V : Type) where
  eventName : String
  newImage : Option (K × V)
  keys : Option K
deriving DecidableEq, Repr

/-- Outcome of applying one record inside the loop of
`_apply_batch_with_retry`: `stats.applied` incremented, `stats.errors`
incremented with an error message recorded, or neither (the source has no
branch for an event name other than INSERT, MODIFY, REMOVE, so such a
record falls through the `if`/`elif` chain untouched). -/
inductive RecOutcome where
  | applied
  | errored (msg : String)
  | skipped
deriving DecidableEq, Repr

/-- Statistics dict `{'applied': ..., 'errors': ...}` returned by
`_apply_batch_with_retry`. -/
structure BatchStats where
  applied : Nat
  errors : Nat
deriving DecidableEq, Repr

/-- One element of the persisted error artifact:
`{'record_index': i, 'error': str(e), 'record_data': record}`. -/
structure ErrorRecord (K V : Type) where
  record_index : Nat
  error : String
  record_data : StreamRecord K V
deriving DecidableEq, Repr

variable {K V : Type} [DecidableEq K]

/-- Single step of the record loop of `_apply_batch_with_retry`.  `fa` is the
fault the service injects into this record's write call (`none` means the
call behaves normally).  Returns the new table state and the outcome.

Faithful to the source: INSERT and MODIFY issue an unconditional `put_item`
of the full `NewImage`; REMOVE issues a `delete_item` conditioned on the key
attribute existing, and a `ConditionalCheckFailedException` is caught and
counted as applied; any other exception of a record reaches the per-record
`except Exception` handler, which counts an error and leaves the table
untouched. -/
def applyRecordStep (fa : Option PyErr) (tbl : K → Option V) (r : StreamRecord K V) :
    (K → Option V) × RecOutcome :=
  if r.eventName = "INSERT" ∨ r.eventName = "MODIFY" then
    match r.newImage with
    | none => (tbl, .errored "KeyError")
    | some (k, v) =>
      match fa with
      | some e => (tbl, .errored (errStr e))
      | none => (Function.update tbl k (some v), .applied)
  else if r.eventName = "REMOVE" then
    match r.keys with
    | none => (tbl, .errored "KeyError")
    | some k =>
      match fa with
      | some (.clientError c) =>
        if c = "ConditionalCheckFailedException" then (tbl, .applied)
        else (tbl, .errored c)
      | some (.otherError n) => (tbl, .errored n)
      | none =>
        match tbl k with
        | some _ => (Function.update tbl k none, .applied)
        | none => (tbl, .applied)
  else (tbl, .skipped)

/-- Accounting step of the record loop: fold the outcome of record `r` at
index `i` into the result of the remaining records (`rest`).  The stats of
the current record are added to those accumulated over the tail, and an
errored record is prepended to the tail's error list, matching the
append-in-record-order of the source. -/
def foldOutcome (i : Nat) (r : StreamRecord K V) (out : RecOutcome)
    (rest : (K → Option V) × BatchStats × List (ErrorRecord K V)) :
    (K → Option V) × BatchStats × List (ErrorRecord K V) :=
  match out with
  | .applied => (rest.1, ⟨rest.2.1.applied + 1, rest.2.1.errors⟩, rest.2.2)
  | .errored msg => (rest.1, ⟨rest.2.1.applied, rest.2.1.errors + 1⟩, ⟨i, msg, r⟩ :: rest.2.2)
  | .skipped => rest

/-- Record loop of `_apply_batch_with_retry` starting at index `i`, with the
per-index service fault environment `fault`.  Returns the final table state,
the stats dict, and the collected error records (in record order, as the
source appends them). -/
def applyBatchGo (fault : Nat → Option PyErr) (i : Nat) (tbl : K → Option V) :
    List (StreamRecord K V) → ((K → Option V) × BatchStats × List (ErrorRecord K V))
  | [] => (tbl, ⟨0, 0⟩, [])
  | r :: rs =>
    foldOutcome i r (applyRecordStep (fault i) tbl r).2
      (applyBatchGo fault (i + 1) (applyRecordStep (fault i) tbl r).1 rs)

/-- Model of `EnhancedBatchApplier._apply_batch_with_retry` applied to one
sub-batch: the enumerate loop starts at index 0. -/
def applyBatchWithRetry (fault : Nat → Option PyErr) (tbl : K → Option V)
    (batch : List (StreamRecord K V)) : (K → Option V) × BatchStats × List (ErrorRecord K V) :=
  applyBatchGo fault 0 tbl batch

/-- Table state after the record loop, ignoring the stats. -/
def applyState (fault : Nat → Option PyErr) (i : Nat) (tbl : K → Option V)
    (rs : List (StreamRecord K V)) : K → Option V :=
  (applyBatchGo fault i tbl rs).1

/-- Effect of one record on the table value stored at a fixed key `k`:
a put of a full image at key `k1` overwrites position `k1` and nothing else,
a successful or condition-failed delete at key `k1` clears position `k1` and
nothing else, and every faulted, malformed or unrecognised record leaves the
table untouched. -/
def keyEffect (fa : Option PyErr) (r : StreamRecord K V) (k : K) (cur : Option V) : Option V :=
  if r.eventName = "INSERT" ∨ r.eventName = "MODIFY" then
    match r.newImage with
    | none => cur
    | some (k1, v) =>
      match fa with
      | some _ => cur
      | none => if k = k1 then some v else cur
  else if r.eventName = "REMOVE" then
    match r.keys with
    | none => cur
    | some k1 =>
      match fa with
      | some _ => cur
      | none => if k = k1 then none else cur
  else cur

/-- Composite effect of a record list on the value stored at key `k`,
mirroring the sequential record loop. -/
def chainEffect (fault : Nat → Option PyErr) (i : Nat) (k : K) :
    List (StreamRecord K V) → Option V → Option V
  | [], cur => cur
  | r :: rs, cur => chainEffect fault (i + 1) k rs (keyEffect (fault i) r k cur)

/-- A self-map of `Option V` that is either the identity or a constant map.
Every per-key record effect has this shape, and the shape is closed under
composition, which is what makes replay idempotent. -/
def IdOrConst (g : Option V → Option V) : Prop :=
  (∀ x, g x = x) ∨ ∃ c, ∀ x, g x = c

/-- Outcome of one record, which never depends on the current table state:
a put succeeds unless faulted, a delete is counted as applied whether the row
was present or absent (the condition-failed case is caught), a faulted
delete is applied when the fault is the conditional-check failure and an
error otherwise, a record missing its image or keys is an error, and an
unrecognised event name is skipped. -/
def recOutcome (fa : Option PyErr) (r : StreamRecord K V) : RecOutcome :=
  if r.eventName = "INSERT" ∨ r.eventName = "MODIFY" then
    match r.newImage with
    | none => .errored "KeyError"
    | some _ =>
      match fa with
      | some e => .errored (errStr e)
      | none => .applied
  else if r.eventName = "REMOVE" then
    match r.keys with
    | none => .errored "KeyError"
    | some _ =>
      match fa with
      | some (.clientError c) =>
        if c = "ConditionalCheckFailedException" then .applied else .errored c
      | some (.otherError n) => .errored n
      | none => .applied
  else .skipped

/-- Boolean test for an errored outcome. -/
def isErrored : RecOutcome → Bool
  | .errored _ => true
  | _ => false

/-- Boolean test for an applied outcome. -/
def isApplied : RecOutcome → Bool
  | .applied => true
  | _ => false

/-- Boolean test for a skipped outcome. -/
def isSkipped : RecOutcome → Bool
  | .skipped => true
  | _ => false

/-- Number of records of `rs` (enumerated from `i`) whose outcome satisfies
`p` under the fault environment `fault`. -/
def outcomeCount (p : RecOutcome → Bool) (fault : Nat → Option PyErr) (i : Nat) :
    List (StreamRecord K V) → Nat
  | [] => 0
  | r :: rs =>
    (if p (recOutcome (fault i) r) then 1 else 0) + outcomeCount p fault (i + 1) rs

/-!  ## Retry wrapper: `retry_with_backoff` of `retry_decorator.py`

The wrapped operation is modelled as a function from the attempt number
(0-based) to the outcome of that invocation.  The wrapper is modelled
together with an execution trace: the value or propagated exception, the
number of invocations performed, and the list of sleep lengths (seconds, as
rationals) in order.  The `exceptions` parameter is left at its default
`(Exception,)`, as every caller in the repository does, so the second
handler catches every non-`ClientError` exception. -/

/-- Result propagated by the wrapper, the number of calls to the wrapped
operation, and the backoff sleeps performed, in order. -/
structure RetryTrace (A : Type) where
  result : Except PyErr A
  calls : Nat
  sleeps : List ℚ
deriving Repr

/-- Loop body of `retry_with_backoff`: `attempt` is the current 0-based
attempt number and `remaining` the number of attempts still allowed after
this one (so the loop runs `maxRetries + 1` times in total).

Faithful branch structure: a `ClientError` whose code is not in
`retriable` re-raises at once; a retriable `ClientError` or any other
exception sleeps `delay` and retries while attempts remain, and re-raises
the current exception once `attempt = maxRetries` (the last loop
iteration, where every failure propagates with no further sleep). -/
def retryLoop {A : Type} (op : Nat → Except PyErr A) (retriable : List String)
    (factor : ℚ) : Nat → Nat → ℚ → RetryTrace A
  | attempt, 0, _ =>
    match op attempt with
    | .ok a => ⟨.ok a, 1, []⟩
    | .error e => ⟨.error e, 1, []⟩
  | attempt, r + 1, delay =>
    match op attempt with
    | .ok a => ⟨.ok a, 1, []⟩
    | .error (.clientError c) =>
      if c ∈ retriable then
        let rest := retryLoop op retriable factor (attempt + 1) r (delay * factor)
        ⟨rest.result, rest.calls + 1, delay :: rest.sleeps⟩
      else ⟨.error (.clientError c), 1, []⟩
    | .error (.otherError n) =>
      let rest := retryLoop op retriable factor (attempt + 1) r (delay * factor)
      ⟨rest.result, rest.calls + 1, delay :: rest.sleeps⟩

/-- Model of `retry_with_backoff(max_retries, initial_delay, backoff_factor,
retriable_errors)` applied to `op`. -/
def retryWithBackoff {A : Type} (maxRetries : Nat) (initialDelay factor : ℚ)
    (retriable : List String) (op : Nat → Except PyErr A) : RetryTrace A :=
  retryLoop op retriable factor 0 maxRetries initialDelay

/-- Retriable error codes of the `retry_dynamodb_operation` profile. -/
def dynamodbRetriable : List String :=
  ["ProvisionedThroughputExceededException", "ThrottlingException",
   "RequestLimitExceeded", "InternalServerError"]

/-- Retriable error codes of the default `retry_with_backoff` profile. -/
def defaultRetriable : List String :=
  ["ProvisionedThroughputExceededException", "ThrottlingException",
   "RequestLimitExceeded", "ServiceUnavailable", "InternalServerError"]

/-- Operation that fails with a retriable throttling `ClientError` on every
attempt; used to exercise retry exhaustion. -/
def alwaysThrottle : Nat → Except PyErr Unit :=
  fun _ => .error (.clientError "ThrottlingException")

/-- Operation that fails with a plain `ValueError` (no service error code)
on every attempt. -/
def alwaysValueError : Nat → Except PyErr Unit :=
  fun _ => .error (.otherError "ValueError")

/-- Operation that fails with a non-retriable validation `ClientError` on
every attempt. -/
def alwaysValidation : Nat → Except PyErr Unit :=
  fun _ => .error (.clientError "ValidationException")

/-!  ## Change window resolver:
`DisasterRecoveryManager.find_incremental_changes`

An object listed under the `ddb-changes/` prefix is modelled by its key and
its `LastModified` time (seconds, as an integer).  The outcomes of the two
remote calls of the function (`describe_export` giving the export time, and
`list_objects_v2` giving the listing) are supplied as explicit `Except`
values; the enclosing `try` of the source catches any exception and returns
the empty list. -/

/-- One S3 listing entry: object key and LastModified timestamp. -/
structure S3Object where
  key : String
  lastModified : Int
deriving DecidableEq, Repr

/-- Python `file_key.endswith(".json")`, computed over the characters of
the key. -/
def endsWithDotJson (s : String) : Bool :=
  (".json".data).isSuffixOf s.data

/-- Insert a `(time, key)` pair into a list sorted ascending by time,
after all entries whose time is less than or equal, matching the stability
of Python `list.sort`. -/
def insertByTime (p : Int × String) : List (Int × String) → List (Int × String)
  | [] => [p]
  | q :: qs => if q.1 ≤ p.1 then q :: insertByTime p qs else p :: q :: qs

/-- Stable ascending sort by timestamp, modelling
`change_files.sort(key=lambda x: x[0])`. -/
def sortByTime (l : List (Int × String)) : List (Int × String) :=
  l.foldl (fun acc p => insertByTime p acc) []

/-- Body of the listing loop of `find_incremental_changes`: keep the
`(LastModified, key)` pair of every `.json` object whose LastModified is at
or after `exportTime - 60`, then sort ascending by time. -/
def resolveWindowPairs (exportTime : Int) (objs : List S3Object) : List (Int × String) :=
  sortByTime (objs.filterMap fun o =>
    if endsWithDotJson o.key then
      if exportTime - 60 ≤ o.lastModified then some (o.lastModified, o.key) else none
    else none)

/-- Happy-path body of `find_incremental_changes`: propagate a failure of
either remote call, otherwise return the keys of the resolved window in
ascending production-time order. -/
def findIncrementalChangesBody (exportTime : Except PyErr Int)
    (listing : Except PyErr (List S3Object)) : Except PyErr (List String) :=
  match exportTime with
  | .error e => .error e
  | .ok t =>
    match listing with
    | .error e => .error e
    | .ok objs => .ok ((resolveWindowPairs t objs).map Prod.snd)

/-- Model of `DisasterRecoveryManager.find_incremental_changes`: the
enclosing `try` turns any exception into an empty file list. -/
def find_incremental_changes (exportTime : Except PyErr Int)
    (listing : Except PyErr (List S3Object)) : List String :=
  match findIncrementalChangesBody exportTime listing with
  | .ok files => files
  | .error _ => []

/-!  ## Recovery orchestrator:
`DisasterRecoveryManager.full_disaster_recovery`

Each step's interaction with the outside world is summarized by the
environment below; the function itself is the literal step sequencing of
the source. -/

/-- Outcomes of the remote interactions of one recovery run. -/
structure RecoveryEnv where
  /-- Result of `find_latest_full_backup`: was usable backup metadata
  returned?  (That function catches its own exceptions and returns None.) -/
  backupFound : Bool
  /-- Result of `restore_from_full_backup`. -/
  restoreOk : Bool
  /-- Outcome of `describe_export` on the backup's export ARN inside
  `find_incremental_changes`. -/
  exportTime : Except PyErr Int
  /-- Outcome of `list_objects_v2` on the `ddb-changes/` prefix inside
  `find_incremental_changes`. -/
  listing : Except PyErr (List S3Object)
  /-- Result of `apply_incremental_changes` over the resolved window. -/
  applyOk : Bool

/-- Model of `DisasterRecoveryManager.full_disaster_recovery`: find the
backup (abort on none), restore in full (abort on failure), resolve the
change window, apply it when non-empty (abort on failure), report success. -/
def full_disaster_recovery (env : RecoveryEnv) : Bool :=
  if !env.backupFound then false
  else if !env.restoreOk then false
  else
    let changeFiles := find_incremental_changes env.exportTime env.listing
    if !changeFiles.isEmpty then
      if !env.applyOk then false else true
    else true

/-!  ## Sub-batch driver: `EnhancedBatchApplier.apply_changes_from_s3`

The S3 read (already wrapped in its own retry) is summarized by an `Except`
value.  The modelled `_apply_batch_with_retry` is total — every per-record
exception is caught inside its loop — so the three-attempt sub-batch retry
of the source always succeeds on the first attempt and the
`total_stats['errors'] += len(batch_records)` fallback is unreachable in
the model (the unmodelled failure sources are the error-artifact file write
and client construction). -/

/-- Chunked sub-batch loop of `apply_changes_from_s3`: split the records
into consecutive sub-batches of `batchSize`, apply each through the record
loop (per-chunk indices restart at 0, faults are drawn from the global
record position `start + j`), and accumulate the stats. -/
def processAll (fault : Nat → Option PyErr) (batchSize : Nat) (start : Nat)
    (tbl : K → Option V) (records : List (StreamRecord K V)) :
    (K → Option V) × BatchStats :=
  if h : records.isEmpty ∨ batchSize = 0 then (tbl, ⟨0, 0⟩)
  else
    let res := applyBatchWithRetry (fun j => fault (start + j)) tbl (records.take batchSize)
    let rest := processAll fault batchSize (start + batchSize) res.1 (records.drop batchSize)
    (rest.1, ⟨res.2.1.applied + rest.2.applied, res.2.1.errors + rest.2.errors⟩)
termination_by records.length
decreasing_by
  simp only [List.length_drop]
  push_neg at h
  have hnil : records ≠ [] := by
    intro hr
    exact h.1 (by simp [hr])
  have hlen : 0 < records.length := List.length_pos.mpr hnil
  have hbs : 0 < batchSize := Nat.pos_of_ne_zero h.2
  omega

/-- Happy-path body of `apply_changes_from_s3`: propagate a read failure,
return True for an empty file, raise `ValueError` for a zero batch size
(Python `range` with step 0), otherwise run all sub-batches and report
whether the cumulative error count is zero. -/
def applyChangesBody (read : Except PyErr (List (StreamRecord K V)))
    (fault : Nat → Option PyErr) (batchSize : Nat) (tbl : K → Option V) :
    Except PyErr Bool :=
  match read with
  | .error e => .error e
  | .ok records =>
    if records.isEmpty then .ok true
    else if batchSize = 0 then .error (.otherError "ValueError")
    else .ok ((processAll fault batchSize 0 tbl records).2.errors == 0)

/-- Model of `EnhancedBatchApplier.apply_changes_from_s3`: the enclosing
`try` turns any escaping exception into the return value False. -/
def apply_changes_from_s3 (read : Except PyErr (List (StreamRecord K V)))
    (fault : Nat → Option PyErr) (batchSize : Nat) (tbl : K → Option V) : Bool :=
  match applyChangesBody read fault batchSize tbl with
  | .ok b => b
  | .error _ => false

/-!  ## Concrete inputs for witnesses and counterexamples -/

/-- Empty table over natural-number keys and values. -/
def emptyTbl : Nat → Option Nat := fun _ => none

/-- A REMOVE record for key 7. -/
def removeRec7 : StreamRecord Nat Nat :=
  { eventName := "REMOVE", newImage := none, keys := some 7 }

/-- A record with an unrecognised event name. -/
def unknownRec : StreamRecord Nat Nat :=
  { eventName := "UPSERT", newImage := some (1, 1), keys := some 1 }

/-- A 100-record batch of INSERT records with distinct keys. -/
def batch100 : List (StreamRecord Nat Nat) :=
  (List.range 100).map fun n => { eventName := "INSERT", newImage := some (n, n), keys := none }

/-- Fault environment that fails the write calls of records 5, 17 and 42
with a non-retriable validation error and leaves all others alone. -/
def fault3 : Nat → Option PyErr :=
  fun j => if j = 5 ∨ j = 17 ∨ j = 42 then some (.clientError "ValidationException") else none

/-- Fault-free environment. -/
def noFault : Nat → Option PyErr := fun _ => none

/-!  ## Lemmas about the record loop -/

theorem foldOutcome_fst (i : Nat) (r : StreamRecord K V) (out : RecOutcome)
    (rest : (K → Option V) × BatchStats × List (ErrorRecord K V)) :
    (foldOutcome i r out rest).1 = rest.1 := by
  cases out <;> rfl

theorem foldOutcome_errs_mem (i : Nat) (r : StreamRecord K V) (out : RecOutcome)
    (rest : (K → Option V) × BatchStats × List (ErrorRecord K V))
    (x : ErrorRecord K V) (hx : x ∈ rest.2.2) : x ∈ (foldOutcome i r out rest).2.2 := by
  cases out with
  | applied => exact hx
  | errored msg => exact List.mem_cons_of_mem _ hx
  | skipped => exact hx

theorem applyState_cons (fault : Nat → Option PyErr) (i : Nat) (tbl : K → Option V)
    (r : StreamRecord K V) (rs : List (StreamRecord K V)) :
    applyState fault i tbl (r :: rs) =
      applyState fault (i + 1) (applyRecordStep (fault i) tbl r).1 rs := by
  simp only [applyState, applyBatchGo, foldOutcome_fst]

/-- The table produced by one record-loop step agrees pointwise with
`keyEffect`: the new value at `k` depends only on the old value at `k`. -/
theorem applyRecordStep_fst_apply (fa : Option PyErr) (tbl : K → Option V)
    (r : StreamRecord K V) (k : K) :
    (applyRecordStep fa tbl r).1 k = keyEffect fa r k (tbl k) := by
  unfold applyRecordStep keyEffect
  by_cases h1 : r.eventName = "INSERT" ∨ r.eventName = "MODIFY"
  · simp only [if_pos h1]
    rcases r.newImage with _ | ⟨k1, v⟩
    · rfl
    · rcases fa with _ | e
      · simp [Function.update_apply]
      · rfl
  · simp only [if_neg h1]
    by_cases h2 : r.eventName = "REMOVE"
    · simp only [if_pos h2]
      rcases r.keys with _ | k1
      · rfl
      · rcases fa with _ | (c | n)
        · rcases ht : tbl k1 with _ | v
          · by_cases hkk : k = k1
            · subst hkk; simp [ht]
            · simp [ht, hkk]
          · simp [ht, Function.update_apply]
        · simp only
          split <;> rfl
        · rfl
    · simp only [if_neg h2]

/-- The record loop acts pointwise on the table through `chainEffect`. -/
theorem applyState_apply (fault : Nat → Option PyErr) (rs : List (StreamRecord K V))
    (i : Nat) (tbl : K → Option V) (k : K) :
    applyState fault i tbl rs k = chainEffect fault i k rs (tbl k) := by
  induction rs generalizing i tbl with
  | nil => rfl
  | cons r rs ih =>
    rw [applyState_cons, ih, chainEffect, applyRecordStep_fst_apply]

theorem idOrConst_comp {g h : Option V → Option V}
    (hg : IdOrConst g) (hh : IdOrConst h) : IdOrConst (fun x => g (h x)) := by
  rcases hg with hg | ⟨c, hc⟩
  · rcases hh with hh | ⟨c, hc⟩
    · exact Or.inl fun x => by show g (h x) = x; rw [hh, hg]
    · exact Or.inr ⟨g c, fun x => by show g (h x) = g c; rw [hc]⟩
  · exact Or.inr ⟨c, fun x => hc _⟩

theorem idOrConst_idem {g : Option V → Option V} (hg : IdOrConst g) (x : Option V) :
    g (g x) = g x := by
  rcases hg with hg | ⟨c, hc⟩
  · rw [hg]
  · rw [hc, hc]

theorem keyEffect_idOrConst (fa : Option PyErr) (r : StreamRecord K V) (k : K) :
    IdOrConst (keyEffect fa r k) := by
  unfold keyEffect
  by_cases h1 : r.eventName = "INSERT" ∨ r.eventName = "MODIFY"
  · simp only [if_pos h1]
    rcases r.newImage with _ | ⟨k1, v⟩
    · exact Or.inl fun x => rfl
    · rcases fa with _ | e
      · by_cases hkk : k = k1
        · exact Or.inr ⟨some v, fun x => by simp [hkk]⟩
        · exact Or.inl fun x => by simp [hkk]
      · exact Or.inl fun x => rfl
  · simp only [if_neg h1]
    by_cases h2 : r.eventName = "REMOVE"
    · simp only [if_pos h2]
      rcases r.keys with _ | k1
      · exact Or.inl fun x => rfl
      · rcases fa with _ | e
        · by_cases hkk : k = k1
          · exact Or.inr ⟨none, fun x => by simp [hkk]⟩
          · exact Or.inl fun x => by simp [hkk]
        · exact Or.inl fun x => rfl
    · simp only [if_neg h2]
      exact Or.inl fun x => rfl

theorem chainEffect_idOrConst (fault : Nat → Option PyErr) (k : K)
    (rs : List (StreamRecord K V)) (i : Nat) :
    IdOrConst (chainEffect fault i k rs) := by
  induction rs generalizing i with
  | nil => exact Or.inl fun x => rfl
  | cons r rs ih =>
    have hc : chainEffect fault i k (r :: rs) =
        fun cur => chainEffect fault (i + 1) k rs (keyEffect (fault i) r k cur) := rfl
    rw [hc]
    exact idOrConst_comp (ih (i + 1)) (keyEffect_idOrConst (fault i) r k)

/-- C1.  For every target-table state and every change batch containing any
mix of INSERT, MODIFY and REMOVE records (and any fixed per-record service
behaviour), applying the batch twice in a row through the per-record
algorithm of `_apply_batch_with_retry` — unconditional full-row put for
INSERT and MODIFY, conditional delete with absent-row-counts-as-success for
REMOVE — yields the same final table state as applying it once. -/
theorem applyBatch_idempotent (fault : Nat → Option PyErr) (tbl : K → Option V)
    (batch : List (StreamRecord K V)) :
    (applyBatchWithRetry fault (applyBatchWithRetry fault tbl batch).1 batch).1 =
      (applyBatchWithRetry fault tbl batch).1 := by
  funext k
  show applyState fault 0 (applyState fault 0 tbl batch) batch k
      = applyState fault 0 tbl batch k
  rw [applyState_apply, applyState_apply]
  exact idOrConst_idem (chainEffect_idOrConst fault k batch 0) (tbl k)

/-- The outcome component of a record-loop step equals `recOutcome` and in
particular is independent of the table. -/
theorem applyRecordStep_snd (fa : Option PyErr) (tbl : K → Option V)
    (r : StreamRecord K V) :
    (applyRecordStep fa tbl r).2 = recOutcome fa r := by
  unfold applyRecordStep recOutcome
  by_cases h1 : r.eventName = "INSERT" ∨ r.eventName = "MODIFY"
  · simp only [if_pos h1]
    rcases r.newImage with _ | ⟨k1, v⟩
    · rfl
    · rcases fa with _ | e <;> rfl
  · simp only [if_neg h1]
    by_cases h2 : r.eventName = "REMOVE"
    · simp only [if_pos h2]
      rcases r.keys with _ | k1
      · rfl
      · rcases fa with _ | (c | n)
        · rcases ht : tbl k1 with _ | v <;> simp [ht]
        · simp only
          split <;> rfl
        · rfl
    · simp only [if_neg h2]

/-- Stats and error-list length of the record loop, as outcome counts. -/
theorem applyBatchGo_stats (fault : Nat → Option PyErr) (rs : List (StreamRecord K V))
    (i : Nat) (tbl : K → Option V) :
    (applyBatchGo fault i tbl rs).2.1.applied = outcomeCount isApplied fault i rs ∧
    (applyBatchGo fault i tbl rs).2.1.errors = outcomeCount isErrored fault i rs ∧
    (applyBatchGo fault i tbl rs).2.2.length = outcomeCount isErrored fault i rs := by
  induction rs generalizing i tbl with
  | nil => exact ⟨rfl, rfl, rfl⟩
  | cons r rs ih =>
    obtain ⟨ih1, ih2, ih3⟩ := ih (i + 1) ((applyRecordStep (fault i) tbl r).1)
    have h2 := applyRecordStep_snd (fault i) tbl r
    rcases ho : recOutcome (fault i) r with _ | msg | _ <;>
      simp [applyBatchGo, foldOutcome, h2, ho, outcomeCount, isApplied, isErrored,
        ih1, ih2, ih3, Nat.add_comm]

/-- Every record that errors appears in the collected error records with its
loop index, error text and original record. -/
theorem errored_mem_errorRecords (fault : Nat → Option PyErr)
    (rs : List (StreamRecord K V)) (i : Nat) (tbl : K → Option V) (j : Nat) (msg : String)
    (hj : j < rs.length)
    (he : recOutcome (fault (i + j)) (rs.get ⟨j, hj⟩) = .errored msg) :
    (⟨i + j, msg, rs.get ⟨j, hj⟩⟩ : ErrorRecord K V) ∈ (applyBatchGo fault i tbl rs).2.2 := by
  induction rs generalizing i tbl j with
  | nil => simp at hj
  | cons r rs ih =>
    have h2 := applyRecordStep_snd (fault i) tbl r
    cases j with
    | zero =>
      simp only [Nat.add_zero, List.get] at he ⊢
      show _ ∈ (foldOutcome i r (applyRecordStep (fault i) tbl r).2 _).2.2
      rw [h2, he]
      exact List.mem_cons_self _ _
    | succ j =>
      have hj2 : j < rs.length := Nat.lt_of_succ_lt_succ hj
      have he2 : recOutcome (fault ((i + 1) + j)) (rs.get ⟨j, hj2⟩) = .errored msg := by
        have : (i + 1) + j = i + (j + 1) := by omega
        rw [this]
        exact he
      have hmem := ih (i + 1) ((applyRecordStep (fault i) tbl r).1) j hj2 he2
      have hidx : (i + 1) + j = i + (j + 1) := by omega
      rw [hidx] at hmem
      exact foldOutcome_errs_mem i r _ _ _ hmem

/-- The three outcome counts partition the batch. -/
theorem outcomeCount_total (fault : Nat → Option PyErr) (rs : List (StreamRecord K V))
    (i : Nat) :
    outcomeCount isApplied fault i rs + outcomeCount isErrored fault i rs +
      outcomeCount isSkipped fault i rs = rs.length := by
  induction rs generalizing i with
  | nil => rfl
  | cons r rs ih =>
    have := ih (i + 1)
    rcases ho : recOutcome (fault i) r <;>
      simp [outcomeCount, isApplied, isErrored, isSkipped, ho] <;> omega

/-- C4.  A REMOVE record whose key is absent from the target table is
applied successfully: `applied` increments, `errors` does not, no error
record is produced and the table (already lacking the key) is unchanged;
a delete failure with any service code other than
`ConditionalCheckFailedException`, or any non-service exception, is counted
as a real per-record error instead. -/
theorem remove_absent_succeeds (tbl : K → Option V) (r : StreamRecord K V) (k : K)
    (hev : r.eventName = "REMOVE") (hkeys : r.keys = some k) (habs : tbl k = none) :
    applyBatchWithRetry noFault tbl [r] = (tbl, ⟨1, 0⟩, []) ∧
    (∀ c, c ≠ "ConditionalCheckFailedException" →
      applyBatchWithRetry (fun _ => some (.clientError c)) tbl [r] =
        (tbl, ⟨0, 1⟩, [⟨0, c, r⟩])) ∧
    (∀ n, applyBatchWithRetry (fun _ => some (.otherError n)) tbl [r] =
        (tbl, ⟨0, 1⟩, [⟨0, n, r⟩])) := by
  have hni : ¬(r.eventName = "INSERT" ∨ r.eventName = "MODIFY") := by
    rw [hev]; simp
  refine ⟨?_, ?_, ?_⟩
  · simp [applyBatchWithRetry, applyBatchGo, applyRecordStep, foldOutcome,
      hni, hev, hkeys, habs, noFault]
  · intro c hc
    simp [applyBatchWithRetry, applyBatchGo, applyRecordStep, foldOutcome,
      hni, hev, hkeys, hc]
  · intro n
    simp [applyBatchWithRetry, applyBatchGo, applyRecordStep, foldOutcome,
      hni, hev, hkeys]

/-- C4 witness: concrete REMOVE of the absent key 7 from the empty table. -/
theorem remove_absent_succeeds_witness :
    (removeRec7.eventName = "REMOVE" ∧ removeRec7.keys = some 7 ∧ emptyTbl 7 = none) ∧
    (applyBatchWithRetry noFault emptyTbl [removeRec7] = (emptyTbl, ⟨1, 0⟩, []) ∧
     (∀ c, c ≠ "ConditionalCheckFailedException" →
       applyBatchWithRetry (fun _ => some (.clientError c)) emptyTbl [removeRec7] =
         (emptyTbl, ⟨0, 1⟩, [⟨0, c, removeRec7⟩])) ∧
     (∀ n, applyBatchWithRetry (fun _ => some (.otherError n)) emptyTbl [removeRec7] =
         (emptyTbl, ⟨0, 1⟩, [⟨0, n, removeRec7⟩]))) :=
  ⟨⟨rfl, rfl, rfl⟩, remove_absent_succeeds emptyTbl removeRec7 7 rfl rfl rfl⟩

/-- C5.  For every sub-batch of 100 records in which exactly 3 records fail
with a (non-retriable, per-record) error and the remaining 97 succeed, the
sub-batch application reports `applied = 97` and `errors = 3`, the batch is
not aborted (the error artifact and the stats account for every record),
and each of the 3 failing records appears in the collected error records
with its original loop index, error text and record payload. -/
theorem partial_batch_failure_isolation (fault : Nat → Option PyErr)
    (tbl : K → Option V) (batch : List (StreamRecord K V))
    (hlen : batch.length = 100)
    (herr : outcomeCount isErrored fault 0 batch = 3)
    (hskip : outcomeCount isSkipped fault 0 batch = 0) :
    (applyBatchWithRetry fault tbl batch).2.1 = ⟨97, 3⟩ ∧
    (applyBatchWithRetry fault tbl batch).2.2.length = 3 ∧
    ∀ j (hj : j < batch.length) msg,
      recOutcome (fault j) (batch.get ⟨j, hj⟩) = .errored msg →
      (⟨j, msg, batch.get ⟨j, hj⟩⟩ : ErrorRecord K V) ∈
        (applyBatchWithRetry fault tbl batch).2.2 := by
  obtain ⟨h1, h2, h3⟩ := applyBatchGo_stats fault batch 0 tbl
  have htot := outcomeCount_total fault batch 0
  refine ⟨?_, ?_, ?_⟩
  · show (applyBatchGo fault 0 tbl batch).2.1 = ⟨97, 3⟩
    have happ : outcomeCount isApplied fault 0 batch = 97 := by omega
    calc (applyBatchGo fault 0 tbl batch).2.1
        = ⟨(applyBatchGo fault 0 tbl batch).2.1.applied,
           (applyBatchGo fault 0 tbl batch).2.1.errors⟩ := rfl
      _ = ⟨97, 3⟩ := by rw [h1, h2, happ, herr]
  · show (applyBatchGo fault 0 tbl batch).2.2.length = 3
    rw [h3, herr]
  · intro j hj msg he
    have hm := errored_mem_errorRecords fault batch 0 tbl j msg hj
      (by simpa using he)
    simpa using hm

/-- C5 witness: a concrete 100-record batch in which the writes of records
5, 17 and 42 fail with a validation error. -/
theorem partial_batch_failure_isolation_witness :
    (batch100.length = 100 ∧
     outcomeCount isErrored fault3 0 batch100 = 3 ∧
     outcomeCount isSkipped fault3 0 batch100 = 0) ∧
    ((applyBatchWithRetry fault3 emptyTbl batch100).2.1 = ⟨97, 3⟩ ∧
     (applyBatchWithRetry fault3 emptyTbl batch100).2.2.length = 3 ∧
     ∀ j (hj : j < batch100.length) msg,
       recOutcome (fault3 j) (batch100.get ⟨j, hj⟩) = .errored msg →
       (⟨j, msg, batch100.get ⟨j, hj⟩⟩ : ErrorRecord Nat Nat) ∈
         (applyBatchWithRetry fault3 emptyTbl batch100).2.2) :=
  ⟨⟨by decide, by decide, by decide⟩,
   partial_batch_failure_isolation fault3 emptyTbl batch100
     (by decide) (by decide) (by decide)⟩

/-- C7 counterexample: a batch consisting of a single record whose event
kind is UPSERT — not INSERT, MODIFY or REMOVE — is applied with an error
count of 0, not of 1: unknown kinds are not counted as per-record errors. -/
theorem unknown_kind_not_counted :
    unknownRec.eventName ∉ (["INSERT", "MODIFY", "REMOVE"] : List String) ∧
    (applyBatchWithRetry noFault emptyTbl [unknownRec]).2.1 = ⟨0, 0⟩ ∧
    (applyBatchWithRetry noFault emptyTbl [unknownRec]).2.1.errors ≠ 1 := by
  refine ⟨by decide, rfl, by decide⟩

/-- C7 amended.  A batch consisting only of records whose operation kind is
not INSERT, MODIFY or REMOVE is processed to completion without aborting,
but each such record is silently skipped: neither `applied` nor `errors`
increments, no error record is produced and the table is unchanged. -/
theorem unknown_kinds_skipped (fault : Nat → Option PyErr) (tbl : K → Option V)
    (batch : List (StreamRecord K V))
    (hun : ∀ r ∈ batch,
      r.eventName ≠ "INSERT" ∧ r.eventName ≠ "MODIFY" ∧ r.eventName ≠ "REMOVE") :
    applyBatchWithRetry fault tbl batch = (tbl, ⟨0, 0⟩, []) := by
  have key : ∀ (rs : List (StreamRecord K V)),
      (∀ r ∈ rs, r.eventName ≠ "INSERT" ∧ r.eventName ≠ "MODIFY" ∧ r.eventName ≠ "REMOVE") →
      ∀ i, applyBatchGo fault i tbl rs = (tbl, ⟨0, 0⟩, []) := by
    intro rs
    induction rs with
    | nil => intro _ i; rfl
    | cons r rs ih =>
      intro hrs i
      have hr := hrs r (List.mem_cons_self r rs)
      have hstep : applyRecordStep (fault i) tbl r = (tbl, .skipped) := by
        unfold applyRecordStep
        rw [if_neg (not_or.mpr ⟨hr.1, hr.2.1⟩), if_neg hr.2.2]
      have htail := ih (fun r hm => hrs r (List.mem_cons_of_mem _ hm)) (i + 1)
      simp [applyBatchGo, hstep, foldOutcome, htail]
  exact key batch hun 0

/-- C7 amended witness: the single-record UPSERT batch is skipped whole. -/
theorem unknown_kinds_skipped_witness :
    (∀ r ∈ [unknownRec],
      r.eventName ≠ "INSERT" ∧ r.eventName ≠ "MODIFY" ∧ r.eventName ≠ "REMOVE") ∧
    applyBatchWithRetry noFault emptyTbl [unknownRec] = (emptyTbl, ⟨0, 0⟩, []) :=
  ⟨by decide, unknown_kinds_skipped noFault emptyTbl [unknownRec] (by decide)⟩

/-!  ## Retry wrapper claims -/

/-- Helper for retry exhaustion: when every attempt fails with a retriable
`ClientError`, the loop performs `remaining + 1` calls and propagates the
error of the final attempt. -/
theorem retryLoop_client_exhaust {A : Type} (op : Nat → Except PyErr A)
    (retriable : List String) (factor : ℚ) (e : Nat → String)
    (hop : ∀ n, op n = .error (.clientError (e n)))
    (hr : ∀ n, e n ∈ retriable) :
    ∀ remaining attempt delay,
      (retryLoop op retriable factor attempt remaining delay).result =
        .error (.clientError (e (attempt + remaining))) ∧
      (retryLoop op retriable factor attempt remaining delay).calls = remaining + 1 := by
  intro remaining
  induction remaining with
  | zero =>
    intro attempt delay
    simp [retryLoop, hop attempt]
  | succ r ih =>
    intro attempt delay
    obtain ⟨ihres, ihcalls⟩ := ih (attempt + 1) (delay * factor)
    have hidx : attempt + 1 + r = attempt + (r + 1) := by omega
    rw [hidx] at ihres
    simp [retryLoop, hop attempt, hr attempt, ihres, ihcalls]

/-- Helper for retrying a plain (non-`ClientError`) exception: the default
`exceptions = (Exception,)` handler retries every attempt, sleeping the
exponentially growing delays, and propagates the error of the final
attempt. -/
theorem retryLoop_other_exhaust {A : Type} (op : Nat → Except PyErr A)
    (retriable : List String) (factor : ℚ) (nm : Nat → String)
    (hop : ∀ n, op n = .error (.otherError (nm n))) :
    ∀ remaining attempt delay,
      retryLoop op retriable factor attempt remaining delay =
        ⟨.error (.otherError (nm (attempt + remaining))), remaining + 1,
          (List.range remaining).map fun j => delay * factor ^ j⟩ := by
  intro remaining
  induction remaining with
  | zero =>
    intro attempt delay
    simp [retryLoop, hop attempt]
  | succ r ih =>
    intro attempt delay
    have hrec := ih (attempt + 1) (delay * factor)
    have hidx : attempt + 1 + r = attempt + (r + 1) := by omega
    rw [hidx] at hrec
    simp only [retryLoop, hop attempt, hrec]
    rw [List.range_succ_eq_map, List.map_cons, List.map_map]
    simp only [pow_zero, mul_one, RetryTrace.mk.injEq]
    refine ⟨trivial, trivial, ?_⟩
    refine congrArg (fun l => delay :: l) ?_
    refine List.map_congr_left fun j hj => ?_
    show delay * factor * factor ^ j = delay * factor ^ (j + 1)
    rw [pow_succ]
    ring

/-- C6.  An operation failing on every invocation with a retriable
`ClientError` kind, wrapped with `max_retries = 3`, is invoked exactly 4
times (1 initial attempt plus 3 retries), after which the error of the last
attempt is propagated unchanged. -/
theorem retry_exhaustion (A : Type) (op : Nat → Except PyErr A)
    (retriable : List String) (initialDelay factor : ℚ) (e : Nat → String)
    (hop : ∀ n, op n = .error (.clientError (e n)))
    (hr : ∀ n, e n ∈ retriable) :
    (retryWithBackoff 3 initialDelay factor retriable op).calls = 4 ∧
    (retryWithBackoff 3 initialDelay factor retriable op).result =
      .error (.clientError (e 3)) := by
  obtain ⟨hres, hcalls⟩ :=
    retryLoop_client_exhaust op retriable factor e hop hr 3 0 initialDelay
  exact ⟨hcalls, hres⟩

/-- C6 witness: an operation that always raises a throttling error, wrapped
with the table-operation profile. -/
theorem retry_exhaustion_witness :
    (∀ n, alwaysThrottle n = .error (.clientError "ThrottlingException")) ∧
    "ThrottlingException" ∈ dynamodbRetriable ∧
    (retryWithBackoff 3 1 2 dynamodbRetriable alwaysThrottle).calls = 4 ∧
    (retryWithBackoff 3 1 2 dynamodbRetriable alwaysThrottle).result =
      .error (.clientError "ThrottlingException") := by
  have hmem : "ThrottlingException" ∈ dynamodbRetriable := by decide
  have h := retry_exhaustion Unit alwaysThrottle dynamodbRetriable 1 2
    (fun _ => "ThrottlingException") (fun _ => rfl) (fun _ => hmem)
  exact ⟨fun _ => rfl, hmem, h.1, h.2⟩

/-- C8.  An operation whose first invocation fails with a `ClientError`
whose code is not in the configured retriable set propagates that error at
once: one invocation, no backoff sleep, the error unchanged. -/
theorem nonretriable_immediate (A : Type) (op : Nat → Except PyErr A)
    (retriable : List String) (maxRetries : Nat) (initialDelay factor : ℚ) (c : String)
    (h0 : op 0 = .error (.clientError c)) (hnr : c ∉ retriable) :
    retryWithBackoff maxRetries initialDelay factor retriable op =
      ⟨.error (.clientError c), 1, []⟩ := by
  unfold retryWithBackoff
  cases maxRetries with
  | zero => simp [retryLoop, h0]
  | succ m => simp [retryLoop, h0, hnr]

/-- C8 witness: a validation error under the table-operation profile. -/
theorem nonretriable_immediate_witness :
    alwaysValidation 0 = .error (.clientError "ValidationException") ∧
    "ValidationException" ∉ dynamodbRetriable ∧
    retryWithBackoff 3 1 2 dynamodbRetriable alwaysValidation =
      ⟨.error (.clientError "ValidationException"), 1, []⟩ :=
  ⟨rfl, by decide,
   nonretriable_immediate Unit alwaysValidation dynamodbRetriable 3 1 2
     "ValidationException" rfl (by decide)⟩

/-- C9.  An exception that is not a service `ClientError` (a plain
`ValueError`, `KeyError`, ...) carries no error code, yet the wrapper under
its default configuration (`max_retries = 3`, initial delay 1.0, factor
2.0, `exceptions = (Exception,)`) retries the operation the full 3 times
with exponential backoff sleeps of 1, 2 and 4 seconds, then propagates the
last exception. -/
theorem plain_exception_retried (A : Type) (op : Nat → Except PyErr A)
    (nm : Nat → String)
    (hop : ∀ n, op n = .error (.otherError (nm n))) :
    (retryWithBackoff 3 1 2 defaultRetriable op).calls = 4 ∧
    (retryWithBackoff 3 1 2 defaultRetriable op).sleeps = [1, 2, 4] ∧
    (retryWithBackoff 3 1 2 defaultRetriable op).result =
      .error (.otherError (nm 3)) := by
  have h := retryLoop_other_exhaust op defaultRetriable 2 nm hop 3 0 1
  unfold retryWithBackoff
  rw [h]
  refine ⟨rfl, ?_, rfl⟩
  norm_num [List.range_succ]

/-- C9 witness: an operation that always raises `ValueError`. -/
theorem plain_exception_retried_witness :
    (∀ n, alwaysValueError n = .error (.otherError "ValueError")) ∧
    ((retryWithBackoff 3 1 2 defaultRetriable alwaysValueError).calls = 4 ∧
     (retryWithBackoff 3 1 2 defaultRetriable alwaysValueError).sleeps = [1, 2, 4] ∧
     (retryWithBackoff 3 1 2 defaultRetriable alwaysValueError).result =
       .error (.otherError "ValueError")) :=
  ⟨fun _ => rfl,
   plain_exception_retried Unit alwaysValueError (fun _ => "ValueError") (fun _ => rfl)⟩

/-!  ## Change window resolver claims -/

theorem insertByTime_perm (p : Int × String) (l : List (Int × String)) :
    List.Perm (insertByTime p l) (p :: l) := by
  induction l with
  | nil => exact List.Perm.refl _
  | cons q qs ih =>
    unfold insertByTime
    by_cases hle : q.1 ≤ p.1
    · rw [if_pos hle]
      exact (List.Perm.cons q ih).trans (List.Perm.swap p q qs)
    · rw [if_neg hle]

theorem insertByTime_sorted (p : Int × String) (l : List (Int × String))
    (hl : List.Sorted (fun a b : Int × String => a.1 ≤ b.1) l) :
    List.Sorted (fun a b : Int × String => a.1 ≤ b.1) (insertByTime p l) := by
  induction l with
  | nil => simp [insertByTime]
  | cons q qs ih =>
    rw [List.sorted_cons] at hl
    obtain ⟨hq, hqs⟩ := hl
    unfold insertByTime
    by_cases hle : q.1 ≤ p.1
    · rw [if_pos hle, List.sorted_cons]
      refine ⟨?_, ih hqs⟩
      intro b hb
      rcases List.mem_cons.mp ((insertByTime_perm p qs).mem_iff.mp hb) with rfl | hbqs
      · exact hle
      · exact hq b hbqs
    · rw [if_neg hle, List.sorted_cons]
      have hpq : p.1 ≤ q.1 := le_of_lt (lt_of_not_le hle)
      constructor
      · intro b hb
        rcases List.mem_cons.mp hb with rfl | hbqs
        · exact hpq
        · exact le_trans hpq (hq b hbqs)
      · rw [List.sorted_cons]
        exact ⟨hq, hqs⟩

theorem foldl_insertByTime_perm (l : List (Int × String)) :
    ∀ acc, List.Perm (l.foldl (fun a p => insertByTime p a) acc) (acc ++ l) := by
  induction l with
  | nil => intro acc; simp
  | cons p ps ih =>
    intro acc
    have h1 := ih (insertByTime p acc)
    have h2 : List.Perm (insertByTime p acc ++ ps) ((p :: acc) ++ ps) :=
      (insertByTime_perm p acc).append_right ps
    refine ((h1.trans h2).trans ?_)
    show List.Perm (p :: (acc ++ ps)) (acc ++ p :: ps)
    exact List.perm_middle.symm

theorem sortByTime_perm (l : List (Int × String)) : List.Perm (sortByTime l) l := by
  simpa [sortByTime] using foldl_insertByTime_perm l []

theorem sortByTime_sorted (l : List (Int × String)) :
    List.Sorted (fun a b : Int × String => a.1 ≤ b.1) (sortByTime l) := by
  have key : ∀ (l2 acc : List (Int × String)),
      List.Sorted (fun a b : Int × String => a.1 ≤ b.1) acc →
      List.Sorted (fun a b : Int × String => a.1 ≤ b.1)
        (l2.foldl (fun a p => insertByTime p a) acc) := by
    intro l2
    induction l2 with
    | nil => intro acc h; exact h
    | cons p ps ih => intro acc h; exact ih _ (insertByTime_sorted p acc h)
  exact key l [] List.sorted_nil

/-- C3.  For a snapshot whose export happened at time `T` and any listing of
change artifacts (all keyed `*.json`, as the change-capture producer writes
them), the resolved replay window contains exactly the artifacts whose
production time is at or after `T - 60` (inclusive boundary), sorted
ascending by that timestamp; in particular, artifacts produced at `T-90`,
`T-61`, `T-59` and `T+5` resolve to exactly the `T-59` and `T+5` artifacts
in that order. -/
theorem change_window_correct (T : Int) (objs : List S3Object)
    (hjson : ∀ o ∈ objs, endsWithDotJson o.key = true) :
    (∀ name, name ∈ find_incremental_changes (.ok T) (.ok objs) ↔
      ∃ o ∈ objs, o.key = name ∧ T - 60 ≤ o.lastModified) ∧
    List.Sorted (fun a b : Int × String => a.1 ≤ b.1) (resolveWindowPairs T objs) ∧
    find_incremental_changes (.ok T) (.ok objs) = (resolveWindowPairs T objs).map Prod.snd ∧
    find_incremental_changes (.ok T)
        (.ok [⟨"a.json", T - 90⟩, ⟨"b.json", T - 61⟩, ⟨"c.json", T - 59⟩, ⟨"d.json", T + 5⟩]) =
      ["c.json", "d.json"] := by
  have hfind : find_incremental_changes (.ok T) (.ok objs) =
      (resolveWindowPairs T objs).map Prod.snd := rfl
  refine ⟨?_, sortByTime_sorted _, hfind, ?_⟩
  · intro name
    constructor
    · intro hk
      rw [hfind] at hk
      obtain ⟨p, hp, hpk⟩ := List.mem_map.mp hk
      have hpf := (sortByTime_perm _).mem_iff.mp hp
      obtain ⟨o, ho, hfo⟩ := List.mem_filterMap.mp hpf
      rw [hjson o ho] at hfo
      by_cases ht : T - 60 ≤ o.lastModified
      · simp only [if_pos ht, if_true, Option.some.injEq] at hfo
        refine ⟨o, ho, ?_, ht⟩
        rw [← hpk, ← hfo]
      · simp [ht] at hfo
    · rintro ⟨o, ho, rfl, ht⟩
      rw [hfind]
      refine List.mem_map.mpr ⟨(o.lastModified, o.key), ?_, rfl⟩
      refine (sortByTime_perm _).mem_iff.mpr ?_
      refine List.mem_filterMap.mpr ⟨o, ho, ?_⟩
      rw [hjson o ho]
      simp [ht]
  · have e1 : endsWithDotJson "a.json" = true := by decide
    have e2 : endsWithDotJson "b.json" = true := by decide
    have e3 : endsWithDotJson "c.json" = true := by decide
    have e4 : endsWithDotJson "d.json" = true := by decide
    have h1 : ¬(T - 60 ≤ T - 90) := by omega
    have h2 : ¬(T - 60 ≤ T - 61) := by omega
    have h3 : T - 60 ≤ T - 59 := by omega
    have h4 : T - 60 ≤ T + 5 := by omega
    have h5 : T - 59 ≤ T + 5 := by omega
    show ((resolveWindowPairs T _).map Prod.snd) = _
    have hfm : resolveWindowPairs T
        [⟨"a.json", T - 90⟩, ⟨"b.json", T - 61⟩, ⟨"c.json", T - 59⟩, ⟨"d.json", T + 5⟩] =
        [(T - 59, "c.json"), (T + 5, "d.json")] := by
      unfold resolveWindowPairs
      simp only [List.filterMap_cons, List.filterMap_nil, e1, e2, e3, e4,
        if_true, if_pos h3, if_pos h4, if_neg h1, if_neg h2]
      simp only [sortByTime, List.foldl, insertByTime, if_pos h5]
    rw [hfm]
    rfl

/-- C3 witness: a concrete two-artifact listing at export time 0. -/
theorem change_window_correct_witness :
    (∀ o ∈ [(⟨"x.json", -10⟩ : S3Object), ⟨"y.json", -100⟩], endsWithDotJson o.key = true) ∧
    ((∀ name, name ∈ find_incremental_changes (.ok 0)
        (.ok [(⟨"x.json", -10⟩ : S3Object), ⟨"y.json", -100⟩]) ↔
      ∃ o ∈ [(⟨"x.json", -10⟩ : S3Object), ⟨"y.json", -100⟩],
        o.key = name ∧ (0 : Int) - 60 ≤ o.lastModified) ∧
    List.Sorted (fun a b : Int × String => a.1 ≤ b.1)
      (resolveWindowPairs 0 [(⟨"x.json", -10⟩ : S3Object), ⟨"y.json", -100⟩]) ∧
    find_incremental_changes (.ok 0) (.ok [(⟨"x.json", -10⟩ : S3Object), ⟨"y.json", -100⟩]) =
      (resolveWindowPairs 0 [(⟨"x.json", -10⟩ : S3Object), ⟨"y.json", -100⟩]).map Prod.snd ∧
    find_incremental_changes (.ok 0)
        (.ok [⟨"a.json", 0 - 90⟩, ⟨"b.json", 0 - 61⟩, ⟨"c.json", 0 - 59⟩, ⟨"d.json", 0 + 5⟩]) =
      ["c.json", "d.json"]) :=
  ⟨by decide, change_window_correct 0 [⟨"x.json", -10⟩, ⟨"y.json", -100⟩] (by decide)⟩

/-!  ## Recovery orchestrator claim -/

/-- C2: evaluation at the failing input.  A recovery run in which the backup
is found and the full restore succeeds, but `describe_export` fails inside
`find_incremental_changes`, resolves an empty window and is reported
successful — the window-resolution failure does not mark the run FAILED,
even when replay itself would have failed. -/
theorem window_error_reported_successful :
    find_incremental_changes (.error (.clientError "InternalServerError"))
      (.ok [⟨"ddb-changes/f1.json", 100⟩]) = [] ∧
    full_disaster_recovery
      ⟨true, true, .error (.clientError "InternalServerError"),
        .ok [⟨"ddb-changes/f1.json", 100⟩], false⟩ = true :=
  ⟨rfl, rfl⟩

/-!  ## Sub-batch driver claim -/

/-- C10.  The public entry point `apply_changes_from_s3` never propagates an
exception: the body's outcome is always collapsed to a Boolean.  When the
change artifact is read successfully, the call returns True exactly when the
file is empty or the cumulative error count across all sub-batches is 0;
when reading fails even after its retries, the call returns False. -/
theorem apply_changes_return_contract (read : Except PyErr (List (StreamRecord K V)))
    (fault : Nat → Option PyErr) (batchSize : Nat) (tbl : K → Option V)
    (hbs : 0 < batchSize) :
    (∀ records, read = .ok records →
      (apply_changes_from_s3 read fault batchSize tbl = true ↔
        records = [] ∨ (processAll fault batchSize 0 tbl records).2.errors = 0)) ∧
    (∀ e, read = .error e → apply_changes_from_s3 read fault batchSize tbl = false) := by
  constructor
  · intro records hr
    subst hr
    cases records with
    | nil => simp [apply_changes_from_s3, applyChangesBody]
    | cons r rs =>
      have hbsne : batchSize ≠ 0 := Nat.pos_iff_ne_zero.mp hbs
      simp [apply_changes_from_s3, applyChangesBody, hbsne]
  · intro e hr
    subst hr
    rfl

/-- C10 witness: a non-empty concrete read with one faulted record under the
default sub-batch size. -/
theorem apply_changes_return_contract_witness :
    (0 : Nat) < 100 ∧
    ((∀ records,
        (.ok batch100 : Except PyErr (List (StreamRecord Nat Nat))) = .ok records →
        (apply_changes_from_s3 (.ok batch100) fault3 100 emptyTbl = true ↔
          records = [] ∨ (processAll fault3 100 0 emptyTbl records).2.errors = 0)) ∧
     (∀ e, (.ok batch100 : Except PyErr (List (StreamRecord Nat Nat))) = .error e →
        apply_changes_from_s3 (.ok batch100) fault3 100 emptyTbl = false)) :=
  ⟨by decide, apply_changes_return_contract (.ok batch100) fault3 100 emptyTbl (by decide)⟩

end DdbDr
